import Mathlib

/-!
Verification of the symbol-bootstrap configuration core
(`src/service/ConfigLoader.ts` and `src/service/ConfigService.ts`).

The TypeScript sources are shallowly embedded: pure computations become Lean
functions, fallible code returns `Except String`, JavaScript numbers holding
balances are modelled as `Int` (amounts are integral; `Math.floor` of a
division of integers with a positive divisor is `Int.fdiv`), and the
randomness of `Account.generateNewAccount` is modelled by an explicit stream
`fresh : Nat -> String` of fresh addresses together with a counter, so that
"how many accounts were generated" is observable.
-/

namespace SymbolBootstrap

/-! ## Nemesis distribution engine (`generateRandomConfiguration`, lines 134-200) -/

/-- Entry of a nemesis `currencyDistributions` list: `{ address, amount }`. -/
structure DistEntry where
  address : String
  amount : Int
deriving Repr, DecidableEq

/-- Nemesis mosaic preset as consumed by the distribution loop:
`m.name`, `m.supply`, `m.accounts` (optional count of free accounts),
`m.currencyDistributions` (explicit distributions supplied by the preset). -/
structure NemesisMosaicPreset where
  name : String
  supply : Int
  accounts : Option Nat
  currencyDistributions : List DistEntry
deriving Repr, DecidableEq

/-- The slice of a node that the distribution loop reads: the node's main
account address (from `addresses.nodes[i].main.address`) and the node
preset's `balances` array (`presetData.nodes[i].balances`, indexed by
mosaic index; missing entries are `undefined` in JS, `none` here). -/
structure NodeInput where
  mainAddress : String
  balances : List Int
deriving Repr, DecidableEq

/-- The local `sum` helper of the loop (lines 137-148): maps each entry,
throwing on a negative amount (the error names the mosaic, address, amount
and index), then reduces with `+`. -/
def sumDistributionFrom (mosaicName : String) : Nat → List DistEntry → Except String Int
  | _, [] => .ok 0
  | index, d :: rest =>
    if d.amount < 0 then
      .error ("Nemesis distribution balance cannot be less than 0. Mosaic " ++ mosaicName ++
        ", distribution address: " ++ d.address ++ ", amount: " ++ toString d.amount ++
        ", index " ++ toString index)
    else do
      let restSum ← sumDistributionFrom mosaicName (index + 1) rest
      .ok (d.amount + restSum)

/-- `sum(distribution)` as called in the source (indices start at 0). -/
def sumDistribution (mosaicName : String) (l : List DistEntry) : Except String Int :=
  sumDistributionFrom mosaicName 0 l

/-- Plain sum of the amounts of a distribution list. -/
def sumAmounts (l : List DistEntry) : Int :=
  (l.map (fun d => d.amount)).sum

/-- `Number.MAX_SAFE_INTEGER`. -/
def MAX_SAFE_INTEGER : Int := 2 ^ 53 - 1

/-- `m.accounts || 1` (line 149): `0` and `undefined` are falsy, so both
yield one generated free account. -/
def freeAccountCount (m : NemesisMosaicPreset) : Nat :=
  match m.accounts with
  | none => 1
  | some 0 => 1
  | some n => n

/-- `getBalance(nodeIndex)` (lines 156-158):
`presetData.nodes?.[nodeIndex].balances?.[mosaicIndex]`. -/
def getBalance (nodes : List NodeInput) (mosaicIndex nodeIndex : Nat) : Option Int :=
  nodes[nodeIndex]?.bind (fun n => n.balances[mosaicIndex]?)

/-- `providedDistributions` (lines 159-167): the mosaic's explicit
`currencyDistributions` followed by one synthesized entry per node whose
preset balance for this mosaic index is defined. -/
def providedDistributions (m : NemesisMosaicPreset) (nodes : List NodeInput)
    (mosaicIndex : Nat) : List DistEntry :=
  m.currencyDistributions ++
    nodes.enum.filterMap (fun p =>
      p.2.balances[mosaicIndex]?.map (fun b => ⟨p.2.mainAddress, b⟩))

/-- `nodeMainAccounts` (lines 168-170): main addresses of the nodes whose
balance for this mosaic index is undefined (the dynamic recipients). -/
def nodeMainAddresses (nodes : List NodeInput) (mosaicIndex : Nat) : List String :=
  (nodes.enum.filter (fun p => p.2.balances[mosaicIndex]?.isNone)).map
    (fun p => p.2.mainAddress)

/-- `amountPerAccount = Math.floor(remainingSupply / dynamicAccounts)` (line
174), with `remainingSupply = supply - providedSupply` (line 172). -/
def amountPerAccount (supply providedSupply : Int) (dynamicCount : Nat) : Int :=
  Int.fdiv (supply - providedSupply) (Int.ofNat dynamicCount)

/-- The harvesting-currency test of lines 176-177:
`(mosaics.length == 1 && mosaicIndex == 0) || (mosaics.length > 1 && mosaicIndex == 1)`. -/
def isHarvestingMosaic (totalMosaics mosaicIndex : Nat) : Bool :=
  (totalMosaics == 1 && mosaicIndex == 0) || (totalMosaics > 1 && mosaicIndex == 1)

/-- `maxHarvesterBalance` of lines 175-179: the configured maximum for the
harvesting mosaic, `Number.MAX_SAFE_INTEGER` otherwise. -/
def effectiveCap (totalMosaics mosaicIndex : Nat) (maxHarvesterBalance : Int) : Int :=
  if isHarvestingMosaic totalMosaics mosaicIndex then maxHarvesterBalance
  else MAX_SAFE_INTEGER

/-- `generatedAccounts` (lines 180-189): every generated free account gets
`amountPerAccount`; every dynamic node main account gets
`Math.min(maxHarvesterBalance, amountPerAccount)`. -/
def generatedAccounts (freeAddresses nodeMains : List String) (app cap : Int) :
    List DistEntry :=
  freeAddresses.map (fun a => ⟨a, app⟩) ++ nodeMains.map (fun a => ⟨a, min cap app⟩)

/-- `m.currencyDistributions[0].amount = ...` (line 194). On an empty list
the JS expression sets a property of `undefined` and throws a `TypeError`. -/
def correctFirst (l : List DistEntry) (amt : Int) : Except String (List DistEntry) :=
  match l with
  | [] => .error "TypeError: cannot set property amount of undefined"
  | d :: rest => .ok (⟨d.address, amt⟩ :: rest)

/-- Lines 159-194 of the per-mosaic loop body: compute the provided
distributions, the dynamic recipients, the per-account amount, build and
filter the distribution list and apply the remainder correction to its
first element. Returns the corrected `m.currencyDistributions`. -/
def distributionsAfterCorrection (m : NemesisMosaicPreset) (nodes : List NodeInput)
    (mosaicIndex totalMosaics : Nat) (maxHarvesterBalance : Int)
    (freeAddresses : List String) : Except String (List DistEntry) := do
  let provided := providedDistributions m nodes mosaicIndex
  let nodeMains := nodeMainAddresses nodes mosaicIndex
  let providedSupply ← sumDistribution m.name provided
  let app := amountPerAccount m.supply providedSupply (freeAddresses.length + nodeMains.length)
  let cap := effectiveCap totalMosaics mosaicIndex maxHarvesterBalance
  let generated := generatedAccounts freeAddresses nodeMains app cap
  let filtered := (generated ++ provided).filter (fun d => d.amount > 0)
  let generatedSupply ← sumDistribution m.name (generated.drop 1)
  correctFirst filtered (m.supply - providedSupply - generatedSupply)

/-- The full per-mosaic computation (lines 136-199): the corrected list must
sum exactly to `m.supply`, otherwise the run aborts with
`Invalid nemgen total supplied value ...`. -/
def processMosaic (m : NemesisMosaicPreset) (nodes : List NodeInput)
    (mosaicIndex totalMosaics : Nat) (maxHarvesterBalance : Int)
    (freeAddresses : List String) : Except String (List DistEntry) := do
  let corrected ← distributionsAfterCorrection m nodes mosaicIndex totalMosaics
    maxHarvesterBalance freeAddresses
  let supplied ← sumDistribution m.name corrected
  if m.supply ≠ supplied then
    .error ("Invalid nemgen total supplied value, expected " ++ toString m.supply ++
      " but total is " ++ toString supplied)
  else
    .ok corrected

/-! ### Basic lemmas about the validating sum -/

theorem sumDistributionFrom_ok {name : String} :
    ∀ (l : List DistEntry) (i : Nat) (s : Int),
      sumDistributionFrom name i l = .ok s → s = sumAmounts l := by
  intro l
  induction l with
  | nil =>
    intro i s h
    simp [sumDistributionFrom] at h
    simp [sumAmounts, ← h]
  | cons d rest ih =>
    intro i s h
    simp only [sumDistributionFrom] at h
    by_cases hneg : d.amount < 0
    · simp [hneg] at h
    · simp only [hneg, if_false, bind, Except.bind] at h
      cases hrest : sumDistributionFrom name (i + 1) rest with
      | error e => rw [hrest] at h; simp at h
      | ok restSum =>
        rw [hrest] at h
        simp only [Except.ok.injEq] at h
        have := ih (i + 1) restSum hrest
        simp [sumAmounts] at this ⊢
        omega

theorem sumDistribution_ok {name : String} {l : List DistEntry} {s : Int}
    (h : sumDistribution name l = .ok s) : s = sumAmounts l :=
  sumDistributionFrom_ok l 0 s h

theorem sumDistributionFrom_of_nonneg {name : String} :
    ∀ (l : List DistEntry) (i : Nat), (∀ d ∈ l, 0 ≤ d.amount) →
      sumDistributionFrom name i l = .ok (sumAmounts l) := by
  intro l
  induction l with
  | nil => intro i _; simp [sumDistributionFrom, sumAmounts]
  | cons d rest ih =>
    intro i hpos
    have hd : ¬ d.amount < 0 := by
      have := hpos d (by simp)
      omega
    simp only [sumDistributionFrom, hd, if_false, bind, Except.bind]
    rw [ih (i + 1) (fun x hx => hpos x (by simp [hx]))]
    simp [sumAmounts]

theorem sumDistribution_of_nonneg {name : String} {l : List DistEntry}
    (h : ∀ d ∈ l, 0 ≤ d.amount) :
    sumDistribution name l = .ok (sumAmounts l) :=
  sumDistributionFrom_of_nonneg l 0 h

/-! ### Claim C1 -/

/-- Claim C1: for every nemesis mosaic processed on a fresh run, whenever the
per-mosaic computation returns a final `currencyDistributions` list (no
fatal error), that list sums exactly to the mosaic's declared supply; a
mismatching sum makes the computation abort with a fatal error instead of
returning a distribution list (the `Except.error` branch of
`processMosaic`). -/
theorem claim_C1_supply_conservation (m : NemesisMosaicPreset) (nodes : List NodeInput)
    (mosaicIndex totalMosaics : Nat) (maxHarvesterBalance : Int)
    (freeAddresses : List String) (dists : List DistEntry)
    (h : processMosaic m nodes mosaicIndex totalMosaics maxHarvesterBalance freeAddresses =
      .ok dists) :
    sumAmounts dists = m.supply := by
  unfold processMosaic at h
  cases hc : distributionsAfterCorrection m nodes mosaicIndex totalMosaics
      maxHarvesterBalance freeAddresses with
  | error e => rw [hc] at h; simp [bind, Except.bind] at h
  | ok corrected =>
    rw [hc] at h
    simp only [bind, Except.bind] at h
    cases hs : sumDistribution m.name corrected with
    | error e => rw [hs] at h; simp at h
    | ok supplied =>
      rw [hs] at h
      by_cases heq : m.supply ≠ supplied
      · simp [heq] at h
      · push_neg at heq
        simp only [heq, ne_eq, not_true_eq_false, if_false, Except.ok.injEq] at h
        subst h
        rw [← sumDistribution_ok hs, heq]

/-- Concrete witness for claim C1: supply 100, one explicit distribution of
10, two generated free accounts; the run succeeds and the final list sums
to the supply. -/
def mosaicC1 : NemesisMosaicPreset := ⟨"currency", 100, some 2, [⟨"E", 10⟩]⟩

theorem claim_C1_supply_conservation_witness :
    processMosaic mosaicC1 [] 0 1 50 ["F1", "F2"] =
      .ok [⟨"F1", 45⟩, ⟨"F2", 45⟩, ⟨"E", 10⟩] ∧
    sumAmounts [⟨"F1", (45 : Int)⟩, ⟨"F2", 45⟩, ⟨"E", 10⟩] = mosaicC1.supply :=
  ⟨by rfl, claim_C1_supply_conservation mosaicC1 [] 0 1 50 ["F1", "F2"] _ (by rfl)⟩

/-! ### Claim C2 -/

/-- Input refuting claim C2 as stated: supply 10, one explicit distribution
covering the whole supply, one generated free account. -/
def mosaicC2 : NemesisMosaicPreset := ⟨"tok", 10, some 1, [⟨"A", 10⟩]⟩

/-- Claim C2 counterexample: with one generated free account "F" and the
explicit distribution `A -> 10` exhausting the supply, the per-account
amount is 0, the free account is dropped by the zero-amount filter, and the
remainder correction overwrites the amount of the PROVIDED entry `A`
(10 becomes 0) instead of the first generated free account, so a provided
explicit distribution entry IS modified by the correction, contradicting
the claim; the run then aborts with a supply mismatch. -/
theorem claim_C2_counterexample :
    distributionsAfterCorrection mosaicC2 [] 0 1 50 ["F"] = .ok [⟨"A", 0⟩] ∧
    processMosaic mosaicC2 [] 0 1 50 ["F"] =
      .error "Invalid nemgen total supplied value, expected 10 but total is 0" :=
  ⟨by rfl, by rfl⟩

/-- Claim C2 amended: for every mosaic with at least one generated free
account, PROVIDED the computed per-account amount
`floor(remainingSupply / dynamicCount)` is positive (so the first generated
free account survives the zero-amount filter), the rounding-remainder
correction overwrites the amount of the first generated free account with
`supply - sum(provided distributions) - sum(all generated amounts except
the first)`, and no provided explicit distribution entry is modified by the
correction (provided entries reappear verbatim, only filtered for zero
amounts, after the corrected head). When the per-account amount is not
positive the correction instead targets the first surviving entry of the
filtered list — possibly a provided distribution — and the run subsequently
aborts. -/
theorem claim_C2_amended (m : NemesisMosaicPreset) (nodes : List NodeInput)
    (mosaicIndex totalMosaics : Nat) (maxHarvesterBalance : Int)
    (f : String) (fs : List String) (ps : Int) (gtail : List DistEntry)
    (hp : sumDistribution m.name (providedDistributions m nodes mosaicIndex) = .ok ps)
    (hcap : 0 ≤ maxHarvesterBalance)
    (hgt : gtail = (generatedAccounts (f :: fs) (nodeMainAddresses nodes mosaicIndex)
      (amountPerAccount m.supply ps
        ((f :: fs).length + (nodeMainAddresses nodes mosaicIndex).length))
      (effectiveCap totalMosaics mosaicIndex maxHarvesterBalance)).drop 1)
    (happ : 0 < amountPerAccount m.supply ps
      ((f :: fs).length + (nodeMainAddresses nodes mosaicIndex).length)) :
    distributionsAfterCorrection m nodes mosaicIndex totalMosaics maxHarvesterBalance
        (f :: fs) =
      .ok (⟨f, m.supply - ps - sumAmounts gtail⟩ ::
        (gtail ++ providedDistributions m nodes mosaicIndex).filter
          (fun d => d.amount > 0)) := by
  have hcap0 : 0 ≤ effectiveCap totalMosaics mosaicIndex maxHarvesterBalance := by
    unfold effectiveCap
    split
    · exact hcap
    · norm_num [MAX_SAFE_INTEGER]
  have hnonneg : ∀ d ∈ gtail, 0 ≤ d.amount := by
    intro d hd
    rw [hgt] at hd
    simp only [generatedAccounts, List.map_cons, List.cons_append, List.drop_succ_cons,
      List.drop_zero, List.mem_append, List.mem_map] at hd
    rcases hd with ⟨a, _, rfl⟩ | ⟨a, _, rfl⟩
    · exact le_of_lt happ
    · exact le_min hcap0 (le_of_lt happ)
  have hg : sumDistribution m.name gtail = .ok (sumAmounts gtail) :=
    sumDistribution_of_nonneg hnonneg
  unfold distributionsAfterCorrection
  simp only [hp, bind, Except.bind]
  rw [← hgt]
  simp only [hg]
  have hfil : ((generatedAccounts (f :: fs) (nodeMainAddresses nodes mosaicIndex)
      (amountPerAccount m.supply ps
        ((f :: fs).length + (nodeMainAddresses nodes mosaicIndex).length))
      (effectiveCap totalMosaics mosaicIndex maxHarvesterBalance)) ++
        providedDistributions m nodes mosaicIndex).filter (fun d => d.amount > 0) =
      ⟨f, amountPerAccount m.supply ps
        ((f :: fs).length + (nodeMainAddresses nodes mosaicIndex).length)⟩ ::
        (gtail ++ providedDistributions m nodes mosaicIndex).filter
          (fun d => d.amount > 0) := by
    rw [hgt]
    simp only [generatedAccounts, List.map_cons, List.cons_append, List.drop_succ_cons,
      List.drop_zero]
    rw [List.filter_cons_of_pos]
    simpa using happ
  rw [hfil]
  rfl

/-- Concrete witness for the amended claim C2: two free accounts, one
dynamic node main capped at 7, one explicit distribution. -/
def mosaicC2a : NemesisMosaicPreset := ⟨"harvest", 100, some 2, [⟨"E", 10⟩]⟩

theorem claim_C2_amended_witness :
    0 < amountPerAccount mosaicC2a.supply 10 3 ∧
    distributionsAfterCorrection mosaicC2a [⟨"N1", []⟩] 0 1 7 ["F1", "F2"] =
      .ok [⟨"F1", 53⟩, ⟨"F2", 30⟩, ⟨"N1", 7⟩, ⟨"E", 10⟩] := by
  refine ⟨by decide, ?_⟩
  have h := claim_C2_amended mosaicC2a [⟨"N1", []⟩] 0 1 7 "F1" ["F2"] 10 _
    (by rfl) (by decide) rfl (by decide)
  rw [h]
  rfl

/-! ### Claim C3 -/

/-- Claim C3: every dynamic recipient's base allocation is
`floor(remainingSupply / dynamicCount)`; a dynamic node-main recipient is
additionally capped via `min` with the configured `maxHarvesterBalance`
exactly when the mosaic is the harvesting currency (index 1 when more than
one mosaic is defined, index 0 when exactly one is), with
`Number.MAX_SAFE_INTEGER` as the effective cap otherwise; generated free
accounts are never capped (their entries carry the uncapped base amount). -/
theorem claim_C3_dynamic_allocations (free nodeMains : List String)
    (supply ps maxHarvesterBalance : Int) (totalMosaics mosaicIndex : Nat) :
    (generatedAccounts free nodeMains
        (amountPerAccount supply ps (free.length + nodeMains.length))
        (effectiveCap totalMosaics mosaicIndex maxHarvesterBalance)).length =
      free.length + nodeMains.length ∧
    amountPerAccount supply ps (free.length + nodeMains.length) =
      Int.fdiv (supply - ps) (Int.ofNat (free.length + nodeMains.length)) ∧
    (∀ (i : Nat) (a : String), free[i]? = some a →
      (generatedAccounts free nodeMains
        (amountPerAccount supply ps (free.length + nodeMains.length))
        (effectiveCap totalMosaics mosaicIndex maxHarvesterBalance))[i]? =
      some ⟨a, amountPerAccount supply ps (free.length + nodeMains.length)⟩) ∧
    (∀ (j : Nat) (a : String), nodeMains[j]? = some a →
      (generatedAccounts free nodeMains
        (amountPerAccount supply ps (free.length + nodeMains.length))
        (effectiveCap totalMosaics mosaicIndex maxHarvesterBalance))[free.length + j]? =
      some ⟨a, min (effectiveCap totalMosaics mosaicIndex maxHarvesterBalance)
        (amountPerAccount supply ps (free.length + nodeMains.length))⟩) ∧
    (((totalMosaics = 1 ∧ mosaicIndex = 0) ∨ (1 < totalMosaics ∧ mosaicIndex = 1)) ↔
      isHarvestingMosaic totalMosaics mosaicIndex = true) ∧
    (isHarvestingMosaic totalMosaics mosaicIndex = true →
      effectiveCap totalMosaics mosaicIndex maxHarvesterBalance = maxHarvesterBalance) ∧
    (isHarvestingMosaic totalMosaics mosaicIndex = false →
      effectiveCap totalMosaics mosaicIndex maxHarvesterBalance = 2 ^ 53 - 1) := by
  refine ⟨?_, rfl, ?_, ?_, ?_, ?_, ?_⟩
  · simp [generatedAccounts]
  · intro i a ha
    have hi : i < free.length := by
      by_contra hge
      rw [List.getElem?_eq_none (by omega)] at ha
      exact Option.noConfusion ha
    rw [generatedAccounts, List.getElem?_append_left (by simpa using hi),
      List.getElem?_map, ha]
    rfl
  · intro j a ha
    have hj : j < nodeMains.length := by
      by_contra hge
      rw [List.getElem?_eq_none (by omega)] at ha
      exact Option.noConfusion ha
    rw [generatedAccounts, List.getElem?_append_right (by simp), List.getElem?_map]
    simp only [List.length_map, Nat.add_sub_cancel_left]
    rw [ha]
    rfl
  · unfold isHarvestingMosaic
    constructor
    · rintro (⟨h1, h2⟩ | ⟨h1, h2⟩) <;> subst h2 <;> simp [h1]
    · intro h
      simp only [Bool.or_eq_true, Bool.and_eq_true, beq_iff_eq, decide_eq_true_eq] at h
      rcases h with ⟨h1, h2⟩ | ⟨h1, h2⟩
      · exact Or.inl ⟨h1, h2⟩
      · exact Or.inr ⟨h1, h2⟩
  · intro h
    unfold effectiveCap
    rw [h]
    rfl
  · intro h
    unfold effectiveCap
    rw [h]
    rfl

theorem claim_C3_dynamic_allocations_witness :
    (["X"] : List String)[0]? = some "X" ∧
    (generatedAccounts ["F"] ["X"] (amountPerAccount 101 1 2) (effectiveCap 2 1 9))[1 + 0]? =
      some ⟨"X", min (effectiveCap 2 1 9) (amountPerAccount 101 1 2)⟩ := by
  refine ⟨rfl, ?_⟩
  exact (claim_C3_dynamic_allocations ["F"] ["X"] 101 1 9 2 1).2.2.2.1 0 "X" rfl

/-! ## Nemesis section of `generateRandomConfiguration` (lines 125-204) and claim C8

Free nemesis accounts are generated by `this.generateAddresses(...)`
(`Account.generateNewAccount`); the randomness is modelled by a stream
`fresh : Nat -> String` of addresses and a counter of how many have been
consumed. `MosaicId.createFromNonce(mosaicIndex, nemesisSignerAddress)` is
modelled by an abstract map `mosaicId : Nat -> String`. Generated
`ConfigAccount`s are represented by their addresses (the only component the
distribution code reads). -/

/-- One entry of `addresses.mosaics` (`MosaicAccounts`): id, name and the
generated free accounts (lines 151-155). -/
structure MosaicAccounts where
  id : String
  name : String
  accounts : List String
deriving Repr, DecidableEq

/-- The `nemesis` block of a preset, restricted to the field the
distribution code transforms (`mosaics`). -/
structure NemesisPreset where
  mosaics : List NemesisMosaicPreset
deriving Repr, DecidableEq

/-- The slice of a previously persisted `Addresses` file that the nemesis
section reads (`oldAddresses.mosaics`). -/
structure OldAddresses where
  mosaics : Option (List MosaicAccounts)
deriving Repr, DecidableEq

/-- The fresh-creation loop over `presetData.nemesis.mosaics` (lines
134-200): for each mosaic, generate its free accounts from the stream,
record the `MosaicAccounts` entry and replace the mosaic's
`currencyDistributions` by the computed distribution. Mosaics are
processed strictly in order; the counter returns how many fresh accounts
were consumed in total. -/
def processMosaics (nodes : List NodeInput) (totalMosaics : Nat)
    (maxHarvesterBalance : Int) (mosaicId fresh : Nat → String) :
    Nat → Nat → List NemesisMosaicPreset →
      Except String (List MosaicAccounts × List NemesisMosaicPreset × Nat)
  | _, counter, [] => .ok ([], [], counter)
  | mosaicIndex, counter, m :: rest => do
    let count := freeAccountCount m
    let freeAddrs := (List.range count).map (fun i => fresh (counter + i))
    let dists ← processMosaic m nodes mosaicIndex totalMosaics maxHarvesterBalance freeAddrs
    let (restAccounts, restPresets, finalCounter) ←
      processMosaics nodes totalMosaics maxHarvesterBalance mosaicId fresh
        (mosaicIndex + 1) (counter + count) rest
    .ok (⟨mosaicId mosaicIndex, m.name, freeAddrs⟩ :: restAccounts,
      { m with currencyDistributions := dists } :: restPresets, finalCounter)

/-- Lines 125-204 of `generateRandomConfiguration`: when nemesis must be
created and old addresses exist (an upgrade), `addresses.mosaics` and
`presetData.nemesis` are taken verbatim from the previous run (requiring
`oldPresetData`); on a fresh run the distribution loop executes. Returns
`(addresses.mosaics, final presetData.nemesis, new fresh counter)`. -/
def nemesisSection (shouldCreate : Bool) (oldAddresses : Option OldAddresses)
    (oldNemesis : Option NemesisPreset) (nemesis : NemesisPreset)
    (nodes : List NodeInput) (maxHarvesterBalance : Int)
    (mosaicId fresh : Nat → String) (counter : Nat) :
    Except String (Option (List MosaicAccounts) × NemesisPreset × Nat) :=
  if shouldCreate then
    match oldAddresses with
    | some oa =>
      match oldNemesis with
      | none => .error "oldPresetData must be defined when upgrading!"
      | some oldNem => .ok (oa.mosaics, oldNem, counter)
    | none => do
      let (mosaicAccounts, newMosaics, finalCounter) ←
        processMosaics nodes nemesis.mosaics.length maxHarvesterBalance mosaicId fresh
          0 counter nemesis.mosaics
      .ok (some mosaicAccounts, ⟨newMosaics⟩, finalCounter)
  else
    .ok (none, nemesis, counter)

/-- Claim C8: on an upgrade run (old addresses exist) where nemesis creation
would apply, the produced `addresses.mosaics` equals the old addresses'
mosaics verbatim and `presetData.nemesis` is replaced by the old preset's
nemesis verbatim; the per-mosaic distribution loop is not executed and no
new nemesis account is generated (the fresh-account counter is unchanged). -/
theorem claim_C8_upgrade_reuses_nemesis (oldAddresses : OldAddresses)
    (oldNemesis nemesis : NemesisPreset) (nodes : List NodeInput)
    (maxHarvesterBalance : Int) (mosaicId fresh : Nat → String) (counter : Nat) :
    nemesisSection true (some oldAddresses) (some oldNemesis) nemesis nodes
      maxHarvesterBalance mosaicId fresh counter =
      .ok (oldAddresses.mosaics, oldNemesis, counter) := by
  rfl

/-- Concrete instantiation of claim C8. -/
theorem claim_C8_upgrade_reuses_nemesis_witness :
    nemesisSection true (some ⟨some [⟨"id0", "cur", ["F0"]⟩]⟩) (some ⟨[]⟩) ⟨[]⟩ [] 3
        (fun n => "M" ++ toString n) (fun n => "F" ++ toString n) 5 =
      .ok (some [⟨"id0", "cur", ["F0"]⟩], ⟨[]⟩, 5) :=
  claim_C8_upgrade_reuses_nemesis ⟨some [⟨"id0", "cur", ["F0"]⟩]⟩ ⟨[]⟩ ⟨[]⟩ [] 3
    (fun n => "M" ++ toString n) (fun n => "F" ++ toString n) 5

/-! ## Template and repeat expansion (`applyValueTemplate` /
`expandServicesRepeat`, lines 601-646)

YAML/JS values are embedded as the sum type `Value`. JS objects are lists
of key/value pairs with unique keys in insertion order; object spread
`\x7b...a, ...b\x7d` updates existing keys in place and appends new ones
(`spreadMerge`). `BootstrapUtils.runTemplate` (handlebars, outside this
core) is an abstract parameter `tmpl`; modelled from the spec: a string
template is evaluated against the context, producing a string. -/

inductive Value where
  | null : Value
  | bool (b : Bool) : Value
  | num (n : Int) : Value
  | str (s : String) : Value
  | arr (elems : List Value) : Value
  | obj (fields : List (String × Value)) : Value
deriving Repr

/-- JS object property read `o[key]` (keys are unique). -/
def lookupField : List (String × Value) → String → Option Value
  | [], _ => none
  | (k, v) :: rest, key => if k = key then some v else lookupField rest key

/-- JS object property write `o[key] = v`: updates an existing key in place
(keeping its position) or appends a fresh key at the end. -/
def setField : List (String × Value) → String → Value → List (String × Value)
  | [], key, v => [(key, v)]
  | (k, w) :: rest, key, v =>
    if k = key then (k, v) :: rest else (k, w) :: setField rest key v

/-- JS object spread of two field lists (later fields win). -/
def spreadMerge (base fields : List (String × Value)) : List (String × Value) :=
  fields.foldl (fun acc kv => setField acc kv.1 kv.2) base

/-- `_.omit(o, key)`: drop the key, keep the order of the others. -/
def omitField (fields : List (String × Value)) (key : String) : List (String × Value) :=
  fields.filter (fun kv => kv.1 ≠ key)

/-- JS truthiness (`!value` is the negation). -/
def jsTruthy : Value → Bool
  | .null => false
  | .bool b => b
  | .num n => n != 0
  | .str s => s ≠ ""
  | .arr _ => true
  | .obj _ => true

/-- `_.range(n)`: `[0, ..., n-1]` for positive `n`, a descending list for
negative `n`, empty for 0. -/
def rangeList (n : Int) : List Int :=
  if 0 < n then (List.range n.toNat).map Int.ofNat
  else (List.range n.natAbs).map (fun i => -(Int.ofNat i))

/-- `service.repeat || 1` (line 630), after the strict `repeat === 0` check
has been handled: a missing or falsy repeat value counts as 1; numbers
count as themselves. Non-numeric truthy values go through lodash's
`toFinite` coercion, approximated here (`Number(string)` via `String.toInt?`,
0 for arrays and objects); the embedded claims only exercise absent or
numeric repeat values. -/
def repeatCount : Option Value → Int
  | none => 1
  | some (.num k) => k
  | some (.bool _) => 1
  | some .null => 1
  | some (.str s) => if s = "" then 1 else s.toInt?.getD 0
  | some (.arr _) => 0
  | some (.obj _) => 0

mutual

/-- `applyValueTemplate(context, value)` (lines 602-618): falsy values are
returned unchanged; arrays go through service expansion; objects are
mapped field-wise under the context extended with the object's own fields;
strings run the template; other scalars are unchanged. -/
def applyValueTemplate (tmpl : List (String × Value) → String → String)
    (context : List (String × Value)) (value : Value) : Value :=
  if jsTruthy value = false then value
  else
    match value with
    | .arr elems => .arr (expandServicesRepeat tmpl context elems)
    | .obj fields => .obj (mapValuesTemplate tmpl (spreadMerge context fields) fields)
    | .str s => .str (tmpl context s)
    | v => v
termination_by (sizeOf value, 0)

/-- `_.mapValues(service, v => applyValueTemplate(ctx, v))`. -/
def mapValuesTemplate (tmpl : List (String × Value) → String → String)
    (context : List (String × Value)) (fields : List (String × Value)) :
    List (String × Value) :=
  match fields with
  | [] => []
  | (k, v) :: rest =>
    (k, applyValueTemplate tmpl context v) :: mapValuesTemplate tmpl context rest
termination_by (sizeOf fields, 0)

/-- `expandServicesRepeat(context, services)` (lines 621-646):
`_.flatMap` of the per-service expansion, preserving list order. -/
def expandServicesRepeat (tmpl : List (String × Value) → String → String)
    (context : List (String × Value)) (services : List Value) : List Value :=
  match services with
  | [] => []
  | s :: rest => expandService tmpl context s ++ expandServicesRepeat tmpl context rest
termination_by (sizeOf services, 0)

/-- Body of the `_.flatMap` callback: non-objects pass through; `repeat === 0`
drops the entry; otherwise `_.range(repeat || 1)` copies are produced. -/
def expandService (tmpl : List (String × Value) → String → String)
    (context : List (String × Value)) (service : Value) : List Value :=
  match service with
  | .obj fields =>
    match lookupField fields "repeat" with
    | some (.num 0) => []
    | rep => expandCopies tmpl context fields (rangeList (repeatCount rep))
  | v => [v]
termination_by (sizeOf service, 0)

/-- The `_.range(...).map(index => _.omit(_.mapValues(service, ...), 'repeat'))`
of lines 630-644: copy `i` is field-wise template-expanded under
`\x7b...context, ...service, $index: i\x7d` and then stripped of `repeat`. -/
def expandCopies (tmpl : List (String × Value) → String → String)
    (context : List (String × Value)) (fields : List (String × Value))
    (indices : List Int) : List Value :=
  match indices with
  | [] => []
  | i :: rest =>
    .obj (omitField
      (mapValuesTemplate tmpl (setField (spreadMerge context fields) "$index" (.num i)) fields)
      "repeat") :: expandCopies tmpl context fields rest
termination_by (sizeOf fields, sizeOf indices)

end

theorem expandCopies_eq_map (tmpl : List (String × Value) → String → String)
    (context : List (String × Value)) (fields : List (String × Value)) :
    ∀ indices : List Int,
      expandCopies tmpl context fields indices =
        indices.map (fun i =>
          .obj (omitField (mapValuesTemplate tmpl
            (setField (spreadMerge context fields) "$index" (.num i)) fields) "repeat")) := by
  intro indices
  induction indices with
  | nil => simp [expandCopies]
  | cons i rest ih => simp [expandCopies, ih]

theorem lookupField_omitField (l : List (String × Value)) (k : String) :
    lookupField (omitField l k) k = none := by
  induction l with
  | nil => rfl
  | cons kv rest ih =>
    by_cases h : kv.1 = k
    · simpa [omitField, List.filter, h] using ih
    · simpa [omitField, List.filter, h, lookupField] using ih

theorem expandService_obj_cases (tmpl : List (String × Value) → String → String)
    (context : List (String × Value)) (fields : List (String × Value)) :
    expandService tmpl context (.obj fields) = [] ∨
    ∃ indices : List Int,
      expandService tmpl context (.obj fields) = expandCopies tmpl context fields indices := by
  simp only [expandService]
  cases hrep : lookupField fields "repeat" with
  | none => exact Or.inr ⟨_, rfl⟩
  | some v =>
    cases v with
    | num n =>
      cases n with
      | ofNat m =>
        cases m with
        | zero => exact Or.inl rfl
        | succ k => exact Or.inr ⟨_, rfl⟩
      | negSucc m => exact Or.inr ⟨_, rfl⟩
    | null => exact Or.inr ⟨_, rfl⟩
    | bool b => exact Or.inr ⟨_, rfl⟩
    | str s => exact Or.inr ⟨_, rfl⟩
    | arr l => exact Or.inr ⟨_, rfl⟩
    | obj fs => exact Or.inr ⟨_, rfl⟩

/-! ### Claim C4 -/

/-- Claim C4: a service entry with `repeat: 0` contributes no output
entries; an entry without a `repeat` key contributes exactly one entry
(expanded with `$index = 0`); an entry with `repeat: N` (`N >= 1`)
contributes exactly `N` entries, copy `i` template-expanded under the
context extended by the service's own fields and `$index = i`; the
`repeat` key is absent from every output entry; output preserves input
list order (flat-map structure) and within-entry copy order by index. -/
theorem claim_C4_expandServicesRepeat (tmpl : List (String × Value) → String → String)
    (context : List (String × Value)) (fields : List (String × Value)) :
    (lookupField fields "repeat" = some (.num 0) →
      expandService tmpl context (.obj fields) = []) ∧
    (lookupField fields "repeat" = none →
      expandService tmpl context (.obj fields) =
        [.obj (omitField (mapValuesTemplate tmpl
          (setField (spreadMerge context fields) "$index" (.num 0)) fields) "repeat")]) ∧
    (∀ n : Nat, 1 ≤ n → lookupField fields "repeat" = some (.num (Int.ofNat n)) →
      expandService tmpl context (.obj fields) =
        (List.range n).map (fun i =>
          .obj (omitField (mapValuesTemplate tmpl
            (setField (spreadMerge context fields) "$index" (.num (Int.ofNat i))) fields)
            "repeat"))) ∧
    (∀ v ∈ expandService tmpl context (.obj fields), ∀ gs, v = .obj gs →
      lookupField gs "repeat" = none) ∧
    (∀ services : List Value,
      expandServicesRepeat tmpl context services =
        services.flatMap (expandService tmpl context)) := by
  refine ⟨?_, ?_, ?_, ?_, ?_⟩
  · intro h
    simp [expandService, h]
  · intro h
    simp [expandService, h, repeatCount, rangeList, expandCopies, List.range, List.range.loop]
  · intro n hn h
    obtain ⟨k, rfl⟩ : ∃ k, n = k + 1 := ⟨n - 1, by omega⟩
    simp only [expandService, h]
    rw [expandCopies_eq_map]
    have hrc : repeatCount (some (.num (Int.ofNat (k + 1)))) = Int.ofNat (k + 1) := rfl
    have hrl : rangeList (Int.ofNat (k + 1)) = (List.range (k + 1)).map Int.ofNat := by
      simp [rangeList]
    rw [hrc, hrl, List.map_map]
    rfl
  · intro v hv gs hgs
    rcases expandService_obj_cases tmpl context fields with hemp | ⟨indices, hind⟩
    · rw [hemp] at hv
      exact absurd hv (List.not_mem_nil v)
    · rw [hind, expandCopies_eq_map] at hv
      obtain ⟨i, _, rfl⟩ := List.mem_map.mp hv
      cases hgs
      exact lookupField_omitField _ _
  · intro services
    induction services with
    | nil => simp [expandServicesRepeat]
    | cons s rest ih => simp [expandServicesRepeat, ih]

/-- Concrete witness for claim C4: the `repeat: 2` case with the identity
template runner. -/
theorem claim_C4_expandServicesRepeat_witness :
    lookupField [("name", Value.str "n"), ("repeat", Value.num 2)] "repeat" =
      some (.num (Int.ofNat 2)) ∧
    expandService (fun _ s => s) []
        (.obj [("name", Value.str "n"), ("repeat", Value.num 2)]) =
      (List.range 2).map (fun i =>
        .obj (omitField (mapValuesTemplate (fun _ s => s)
          (setField (spreadMerge [] [("name", Value.str "n"), ("repeat", Value.num 2)])
            "$index" (.num (Int.ofNat i)))
          [("name", Value.str "n"), ("repeat", Value.num 2)]) "repeat")) :=
  ⟨by rfl,
    (claim_C4_expandServicesRepeat (fun _ s => s) []
      [("name", Value.str "n"), ("repeat", Value.num 2)]).2.2.1 2 (by omega) (by rfl)⟩

/-! ## Preset merging (`mergePresets`, lines 454-460) and claim C5

`_.merge` (lodash, an external collaborator) is modelled for the shapes a
preset layer takes: plain objects are deep-merged key by key, arrays are
merged index-wise with the longer tail kept, and any other source value
overwrites the destination. A top-level non-object source is a no-op
(lodash iterates the source's own enumerable keys).

In the source, `presets.reverse()` mutates the array in place, so the
second `presets.reverse()` restores the original least-to-most-specific
order before `_.merge(\x7b\x7d, ...presets)` is applied; the `find` over the
first reversal selects the MOST specific layer whose `inflation` value is
truthy — note that an empty object `\x7b\x7d` is truthy in JS — and
`_.isEmpty(inflation)` then decides whether the wholesale override is
applied. -/

/-- Fields of an object value (empty for non-objects). -/
def objFields : Value → List (String × Value)
  | .obj fs => fs
  | _ => []

/-- Elements of an array value (empty for non-arrays). -/
def arrElems : Value → List Value
  | .arr l => l
  | _ => []

mutual

/-- `_.merge` of a source value into a destination value (nested case):
object sources merge key-wise, array sources index-wise, any other source
overwrites. -/
def mergeValue : Value → Value → Value
  | d, .obj sf => .obj (mergeFields (objFields d) sf)
  | d, .arr sl => .arr (mergeArrayValues (arrElems d) sl)
  | _, s => s
termination_by _ s => (sizeOf s, 0)

/-- Key-wise merge of source fields into destination fields. -/
def mergeFields (destFields : List (String × Value)) :
    List (String × Value) → List (String × Value)
  | [] => destFields
  | (k, v) :: rest =>
    let newVal :=
      match lookupField destFields k with
      | some old => mergeValue old v
      | none => v
    mergeFields (setField destFields k newVal) rest
termination_by l => (sizeOf l, 0)

/-- Index-wise merge of source array elements into destination elements;
a longer destination keeps its tail. -/
def mergeArrayValues (destElems : List Value) : List Value → List Value
  | [] => destElems
  | s :: rest =>
    match destElems with
    | [] => s :: mergeArrayValues [] rest
    | d0 :: dtl => mergeValue d0 s :: mergeArrayValues dtl rest
termination_by l => (sizeOf l, 0)

end

/-- Top-level `_.merge(dest, source)` step: only object sources contribute
(lodash iterates the source's own enumerable keys; primitives have none). -/
def lodashMergeTop (dest source : Value) : Value :=
  match source with
  | .obj _ => mergeValue dest source
  | _ => dest

/-- `_.isEmpty` for the values a preset can hold. -/
def lodashIsEmpty : Value → Bool
  | .obj f => f.isEmpty
  | .arr l => l.isEmpty
  | .str s => s.isEmpty
  | _ => true

/-- `p?.inflation` as used by the `find` predicate and the extraction
(line 456): the layer's `inflation` value when the layer is an object, the
key is present and its value is truthy. -/
def layerInflation : Option Value → Option Value
  | some (.obj fs) =>
    (match lookupField fs "inflation" with
     | some v => if jsTruthy v then some v else none
     | none => none)
  | _ => none

/-- JS property assignment `presetData.inflation = inflation` (line 458). -/
def setObjField : Value → String → Value → Value
  | .obj fs, k, v => .obj (setField fs k v)
  | other, _, _ => other

/-- `_.merge(\x7b\x7d, ...presets)` (line 457) over the layers in original
least-to-most-specific order (`undefined` layers are skipped). -/
def mergePresetsBase (layers : List (Option Value)) : Value :=
  layers.foldl
    (fun acc p =>
      match p with
      | some v => lodashMergeTop acc v
      | none => acc)
    (.obj [])

/-- `mergePresets` (lines 454-460): pick the most specific layer with a
truthy `inflation`, deep-merge all layers, then overwrite `inflation`
wholesale unless the picked value is `_.isEmpty`. -/
def mergePresets (layers : List (Option Value)) : Value :=
  let inflation := (layers.reverse.findSome? layerInflation).getD (.obj [])
  let presetData := mergePresetsBase layers
  if lodashIsEmpty inflation then presetData
  else setObjField presetData "inflation" inflation

theorem lookupField_setField (fs : List (String × Value)) (k : String) (v : Value) :
    lookupField (setField fs k v) k = some v := by
  induction fs with
  | nil => simp [setField, lookupField]
  | cons kv rest ih =>
    by_cases h : kv.1 = k
    · simp [setField, h, lookupField]
    · simp [setField, h, lookupField, ih]

theorem mergePresetsBase_isObj (layers : List (Option Value)) :
    ∃ fs, mergePresetsBase layers = .obj fs := by
  suffices h : ∀ acc fs, acc = Value.obj fs →
      ∃ fs2, layers.foldl
        (fun acc p =>
          match p with
          | some v => lodashMergeTop acc v
          | none => acc) acc = .obj fs2 by
    exact h (.obj []) [] rfl
  induction layers with
  | nil => intro acc fs h; exact ⟨fs, h⟩
  | cons p rest ih =>
    intro acc fs h
    subst h
    cases p with
    | none => exact ih (.obj fs) fs rfl
    | some v =>
      cases v with
      | obj sf =>
        exact ih (lodashMergeTop (.obj fs) (.obj sf)) (mergeFields fs sf)
          (by simp [lodashMergeTop, mergeValue, objFields])
      | null => exact ih _ fs rfl
      | bool b => exact ih _ fs rfl
      | num n => exact ih _ fs rfl
      | str s => exact ih _ fs rfl
      | arr l => exact ih _ fs rfl

/-! ### Claim C5 -/

/-- Layer with a non-empty inflation map. -/
def layerA : Value := .obj [("inflation", .obj [("a", .num 1)])]

/-- More specific layer declaring an EMPTY inflation map. -/
def layerB : Value := .obj [("inflation", .obj [])]

/-- Claim C5 counterexample: layer `B` (most specific) declares
`inflation: \x7b\x7d`, which is truthy in JS, so `B` is the most specific layer
defining an inflation map; but `_.isEmpty` suppresses the wholesale
override, and the merged result keeps the key `a` deep-merged from the
less specific layer `A`. The result's inflation is NOT `B`'s declared
(empty) inflation map taken verbatim, refuting the claim. -/
theorem claim_C5_counterexample :
    lookupField (objFields layerB) "inflation" = some (.obj []) ∧
    mergePresets [some layerA, some layerB] =
      .obj [("inflation", .obj [("a", .num 1)])] := by
  constructor
  · rfl
  · simp [mergePresets, mergePresetsBase, layerA, layerB, layerInflation, lookupField,
      jsTruthy, lodashIsEmpty, lodashMergeTop, mergeValue, mergeFields, setField,
      objFields, List.findSome?]

/-- Claim C5 amended: whenever some layer defines a truthy `inflation`
value and the most specific such layer's value is NOT `_.isEmpty`, the
merged result's `inflation` equals that value verbatim (the whole merged
tree is the deep merge with `inflation` overwritten wholesale), so
inflation keys of less specific layers never survive. When the most
specific truthy `inflation` is empty (an empty map), the override is
skipped and the result keeps the key-wise deep merge of all layers'
inflation maps. -/
theorem claim_C5_amended (layers : List (Option Value)) (inflation : Value)
    (hfind : layers.reverse.findSome? layerInflation = some inflation)
    (hne : lodashIsEmpty inflation = false) :
    mergePresets layers = setObjField (mergePresetsBase layers) "inflation" inflation ∧
    lookupField (objFields (mergePresets layers)) "inflation" = some inflation := by
  have hmp : mergePresets layers =
      setObjField (mergePresetsBase layers) "inflation" inflation := by
    unfold mergePresets
    simp [hfind, hne]
  refine ⟨hmp, ?_⟩
  obtain ⟨fs, hbase⟩ := mergePresetsBase_isObj layers
  rw [hmp, hbase]
  simp [setObjField, objFields, lookupField_setField]

/-- Concrete witness for the amended claim C5: only the second layer
declares inflation. -/
theorem claim_C5_amended_witness :
    lodashIsEmpty (.obj [("y", Value.num 2)]) = false ∧
    lookupField (objFields (mergePresets
      [some (.obj [("x", Value.num 1)]),
       some (.obj [("inflation", .obj [("y", Value.num 2)])])])) "inflation" =
      some (.obj [("y", Value.num 2)]) :=
  ⟨by rfl,
    (claim_C5_amended
      [some (.obj [("x", Value.num 1)]),
       some (.obj [("inflation", .obj [("y", Value.num 2)])])]
      (.obj [("y", Value.num 2)]) (by rfl) (by rfl)).2⟩

/-! ## Account generation and reconciliation (`generateAccount`, lines 229-320)

Cryptography is an external collaborator (`symbol-sdk`): it is modelled by
an abstract `CryptoModel` with a public-key derivation `pubOfPriv`, an
address derivation `addrOfPub`, and the private key
`Account.generateNewAccount` would produce next (`freshPrivateKey`).
`KeyName` is `ConfigService.ts` lines 68-77. The `PrivateKeySecurityMode`
enumeration lives outside `src/` (in `model/`); its four constants are
reconstructed from their literal uses in `ConfigLoader.ts` lines 292-317
and the spec's ascending-strictness list. -/

inductive KeyName where
  | Main | Remote | Transport | Voting | VRF | Agent | NemesisSigner | NemesisAccount
deriving Repr, DecidableEq

inductive PrivateKeySecurityMode where
  | ENCRYPT | PROMPT_MAIN | PROMPT_MAIN_TRANSPORT | PROMPT_ALL
deriving Repr, DecidableEq

/-- `ConfigAccount`: address, public key, optional private key. -/
structure ConfigAccount where
  address : String
  publicKey : String
  privateKey : Option String
deriving Repr, DecidableEq

/-- Abstract model of the symbol-sdk key derivations used by
`generateAccount`, together with JS's `String.prototype.toUpperCase`
(`up`), which is likewise external to this core. -/
structure CryptoModel where
  pubOfPriv : String → String
  addrOfPub : String → String
  freshPrivateKey : String
  up : String → String

/-- A symbol-sdk `Account` (with private key) or `PublicAccount`. -/
inductive SdkAccount where
  | full (privateKey publicKey address : String)
  | pub (publicKey address : String)
deriving Repr, DecidableEq

/-- `getAccount(networkType, publicKey, privateKey)` (lines 229-241): a
private key wins and yields an `Account`; else a public key yields a
`PublicAccount`; else `undefined`. -/
def getAccount (c : CryptoModel) (publicKey privateKey : Option String) :
    Option SdkAccount :=
  match privateKey with
  | some pk => some (.full pk (c.pubOfPriv pk) (c.addrOfPub (c.pubOfPriv pk)))
  | none =>
    match publicKey with
    | some pub => some (.pub pub (c.addrOfPub pub))
    | none => none

def sdkAddress : SdkAccount → String
  | .full _ _ a => a
  | .pub _ a => a

/-- `toConfig(account)` (lines 243-255): an `Account` keeps its private
key, a `PublicAccount` produces an object with no `privateKey` property. -/
def toConfig : SdkAccount → ConfigAccount
  | .full pk pub addr => ⟨addr, pub, some pk⟩
  | .pub pub addr => ⟨addr, pub, none⟩

/-- The object spread `\x7b...toConfig(oldAccount), ...toConfig(newAccount)\x7d`
(line 286): the new account's fields override, but a missing `privateKey`
property on the new side lets the old one survive. -/
def spreadConfig (a b : ConfigAccount) : ConfigAccount :=
  ⟨b.address, b.publicKey, b.privateKey.or a.privateKey⟩

/-- `generateAccount` (lines 257-320): reconcile an optional stored account
with an optionally supplied private/public key (all keys uppercased), or
generate a fresh account subject to the security-mode policy. The thrown
`KnownError`s are user-facing configuration errors. -/
def generateAccount (c : CryptoModel) (securityMode : PrivateKeySecurityMode)
    (keyName : KeyName) (oldStoredAccount : Option ConfigAccount)
    (privateKey publicKey : Option String) : Except String ConfigAccount :=
  let oldAccount := getAccount c
    (oldStoredAccount.map (fun a => c.up a.publicKey))
    ((oldStoredAccount.bind (fun a => a.privateKey)).map c.up)
  let newAccount := getAccount c (publicKey.map c.up) (privateKey.map c.up)
  match oldAccount, newAccount with
  | some o, none => .ok (toConfig o)
  | none, some n => .ok (toConfig n)
  | some o, some n =>
    if sdkAddress o = sdkAddress n then .ok (spreadConfig (toConfig o) (toConfig n))
    else .ok (toConfig n)
  | none, none =>
    if keyName = .Main ∧ (securityMode = .PROMPT_ALL ∨
        securityMode = .PROMPT_MAIN_TRANSPORT ∨ securityMode = .PROMPT_MAIN) then
      .error "Account Main cannot be generated when Private Key Security Mode is interactive. Please use ENCRYPT, or provide your Main account with custom presets!"
    else if keyName = .Transport ∧ (securityMode = .PROMPT_ALL ∨
        securityMode = .PROMPT_MAIN_TRANSPORT) then
      .error "Account Transport cannot be generated when Private Key Security Mode is interactive. Please use ENCRYPT, PROMPT_MAIN, or provide your Transport account with custom presets!"
    else if securityMode = .PROMPT_ALL then
      .error "Account cannot be generated when Private Key Security Mode is PROMPT_ALL. Please use ENCRYPT, PROMPT_MAIN, PROMPT_MAIN_TRANSPORT, or provide your account with custom presets!"
    else
      .ok (toConfig (.full c.freshPrivateKey (c.pubOfPriv c.freshPrivateKey)
        (c.addrOfPub (c.pubOfPriv c.freshPrivateKey))))

/-- A stored account as previous runs persist it: uppercase-normalized keys
whose public key and address are consistent with the key derivations. -/
def WellFormedAccount (c : CryptoModel) (a : ConfigAccount) : Prop :=
  c.up a.publicKey = a.publicKey ∧
  c.addrOfPub a.publicKey = a.address ∧
  (match a.privateKey with
   | some pk => c.up pk = pk ∧ c.pubOfPriv pk = a.publicKey
   | none => True)

/-! ### Claim C6 -/

/-- Claim C6, the `generateAccount` decision table (for normalized inputs):
with an old stored account and nothing newly supplied the result is the
old account verbatim; with a supplied key and no old account the result is
the supplied account; with both present and the same address the result
has that address and carries the private key from whichever side has one;
with both present and different addresses the result equals the supplied
account and no error is raised. -/
theorem claim_C6_decision_table (c : CryptoModel) (mode : PrivateKeySecurityMode)
    (keyName : KeyName) (old : ConfigAccount) (pub pk : String)
    (hwf : WellFormedAccount c old)
    (hpub : c.up pub = pub) (hpk : c.up pk = pk) :
    generateAccount c mode keyName (some old) none none = .ok old ∧
    generateAccount c mode keyName none (some pk) none =
      .ok ⟨c.addrOfPub (c.pubOfPriv pk), c.pubOfPriv pk, some pk⟩ ∧
    generateAccount c mode keyName none none (some pub) =
      .ok ⟨c.addrOfPub pub, pub, none⟩ ∧
    (c.addrOfPub pub = old.address →
      generateAccount c mode keyName (some old) none (some pub) =
        .ok ⟨old.address, pub, old.privateKey⟩) ∧
    (c.addrOfPub (c.pubOfPriv pk) = old.address →
      generateAccount c mode keyName (some old) (some pk) none =
        .ok ⟨old.address, c.pubOfPriv pk, some pk⟩) ∧
    (c.addrOfPub pub ≠ old.address →
      generateAccount c mode keyName (some old) none (some pub) =
        .ok ⟨c.addrOfPub pub, pub, none⟩) := by
  obtain ⟨addr, pubk, privk⟩ := old
  obtain ⟨hupper, haddr, hpriv⟩ := hwf
  simp only at hupper haddr hpriv
  cases privk with
  | none =>
    refine ⟨?_, ?_, ?_, ?_, ?_, ?_⟩
    · simp [generateAccount, getAccount, toConfig, hupper, haddr]
    · simp [generateAccount, getAccount, toConfig, hpk]
    · simp [generateAccount, getAccount, toConfig, hpub]
    · intro hsame
      simp only at hsame
      simp [generateAccount, getAccount, toConfig, spreadConfig, sdkAddress,
        hupper, haddr, hpub, hsame, Option.or]
    · intro hsame
      simp only at hsame
      simp [generateAccount, getAccount, toConfig, spreadConfig, sdkAddress,
        hupper, haddr, hpk, hsame, Option.or]
    · intro hdiff
      simp only at hdiff
      simp [generateAccount, getAccount, toConfig, sdkAddress, hupper, haddr, hpub]
      intro heq
      exact absurd heq.symm hdiff
  | some opk =>
    obtain ⟨hopk, hopub⟩ := hpriv
    refine ⟨?_, ?_, ?_, ?_, ?_, ?_⟩
    · simp [generateAccount, getAccount, toConfig, hopk, hopub, haddr]
    · simp [generateAccount, getAccount, toConfig, hpk]
    · simp [generateAccount, getAccount, toConfig, hpub]
    · intro hsame
      simp only at hsame
      simp [generateAccount, getAccount, toConfig, spreadConfig, sdkAddress,
        hopk, hopub, haddr, hpub, hsame, Option.or]
    · intro hsame
      simp only at hsame
      simp [generateAccount, getAccount, toConfig, spreadConfig, sdkAddress,
        hopk, hopub, haddr, hpk, hsame, Option.or]
    · intro hdiff
      simp only at hdiff
      simp [generateAccount, getAccount, toConfig, sdkAddress, hopk, hopub, haddr,
        hpub]
      intro heq
      exact absurd heq.symm hdiff

/-- Concrete crypto model for witnesses (identity uppercasing). -/
def cryptoW : CryptoModel := ⟨fun s => "P" ++ s, fun s => "A" ++ s, "K", fun s => s⟩

theorem claim_C6_decision_table_witness :
    WellFormedAccount cryptoW ⟨"APK", "PK", some "K"⟩ ∧
    generateAccount cryptoW .ENCRYPT .Main (some ⟨"APK", "PK", some "K"⟩) none none =
      .ok ⟨"APK", "PK", some "K"⟩ ∧
    generateAccount cryptoW .ENCRYPT .Main (some ⟨"APK", "PK", some "K"⟩) none (some "Q") =
      .ok ⟨"AQ", "Q", none⟩ := by
  have hwf : WellFormedAccount cryptoW ⟨"APK", "PK", some "K"⟩ :=
    ⟨rfl, rfl, rfl, rfl⟩
  have h := claim_C6_decision_table cryptoW .ENCRYPT .Main ⟨"APK", "PK", some "K"⟩
    "Q" "K" hwf rfl rfl
  exact ⟨hwf, h.1, h.2.2.2.2.2 (by decide)⟩

/-! ### Claim C7 -/

/-- The condition of claim C7 under which key generation must be refused,
stated in the claim's own terms. -/
def generationForbidden (keyName : KeyName) (mode : PrivateKeySecurityMode) : Prop :=
  (keyName = .Main ∧ (mode = .PROMPT_MAIN ∨ mode = .PROMPT_MAIN_TRANSPORT ∨
    mode = .PROMPT_ALL)) ∨
  (keyName = .Transport ∧ (mode = .PROMPT_MAIN_TRANSPORT ∨ mode = .PROMPT_ALL)) ∨
  (keyName ≠ .Main ∧ keyName ≠ .Transport ∧ mode = .PROMPT_ALL)

instance decidableGenerationForbidden (keyName : KeyName)
    (mode : PrivateKeySecurityMode) : Decidable (generationForbidden keyName mode) := by
  unfold generationForbidden
  infer_instance

/-- Claim C7: with neither an old account nor a supplied key,
`generateAccount` raises a user-facing configuration error exactly when
the role/security-mode pair is forbidden (Main under PROMPT_MAIN,
PROMPT_MAIN_TRANSPORT or PROMPT_ALL; Transport under
PROMPT_MAIN_TRANSPORT or PROMPT_ALL; any other role under PROMPT_ALL);
in every other case it generates a fresh keypair, and on error no account
is produced. -/
theorem claim_C7_generation_policy (c : CryptoModel) (mode : PrivateKeySecurityMode)
    (keyName : KeyName) :
    (generationForbidden keyName mode →
      ∃ msg, generateAccount c mode keyName none none none = .error msg) ∧
    (¬ generationForbidden keyName mode →
      generateAccount c mode keyName none none none =
        .ok ⟨c.addrOfPub (c.pubOfPriv c.freshPrivateKey), c.pubOfPriv c.freshPrivateKey,
          some c.freshPrivateKey⟩) := by
  cases keyName <;> cases mode <;>
    refine ⟨fun h => ?_, fun h => ?_⟩ <;>
    first
      | exact ⟨_, rfl⟩
      | rfl
      | (exfalso; revert h; decide)

theorem claim_C7_generation_policy_witness :
    generationForbidden .Main .PROMPT_ALL ∧
    (∃ msg, generateAccount cryptoW .PROMPT_ALL .Main none none none = .error msg) :=
  ⟨by decide, (claim_C7_generation_policy cryptoW .PROMPT_ALL .Main).1 (by decide)⟩

/-! ## `ConfigService.run` prelude (ConfigService.ts lines 115-151,
ConfigLoader.ts lines 648-729) and claim C9

The target folder is modelled by the optional contents of its two
companion files; the parsed contents are abstract types `P` (preset) and
`A` (addresses), and the address migration (`migrateAddresses`) is an
abstract function `migrate : A → A`. -/

/-- `getGeneratedPresetLocation` (line 731-733). -/
def getGeneratedPresetLocation (target : String) : String :=
  target ++ "/preset.yml"

/-- `getGeneratedAddressLocation` (line 735-737). -/
def getGeneratedAddressLocation (target : String) : String :=
  target ++ "/addresses.yml"

/-- Outcome of the prelude of `ConfigService.run`: either the early return
reusing the existing configuration (preset exists, no `--upgrade`), or
generation proceeds with the optional old preset and old addresses. -/
inductive RunMode (P A : Type) where
  | existing (presetData : P) (addresses : A)
  | proceed (oldPresetData : Option P) (oldAddresses : Option A)

/-- The prelude of `ConfigService.run` (lines 115-151) up to the call of
`generateRandomConfiguration`: the early-return branch loads both files
(`loadExistingPresetData` / `loadExistingAddresses`, which throw an error
naming the missing file); the generation branch loads the optional files
(`loadExistingAddressesIfPreset` loads the preset file and thus throws,
naming the preset location, when only addresses.yml exists) and then
checks the upgrade companion-file contract. -/
def runPrelude {P A : Type} (target : String) (upgrade : Bool) (migrate : A → A)
    (presetFile : Option P) (addressesFile : Option A) : Except String (RunMode P A) :=
  match presetFile, upgrade with
  | some p, false =>
    (match addressesFile with
     | some a => .ok (.existing p (migrate a))
     | none => .error ("The file " ++ getGeneratedAddressLocation target ++
         " doesn't exist. Have you executed the 'config' command? Have you provided the right --target param?"))
  | _, _ => do
    let oldPresetData := presetFile
    let oldAddresses ←
      match addressesFile with
      | some a =>
        (match presetFile with
         | some _ => Except.ok (some (migrate a))
         | none => Except.error ("The file " ++ getGeneratedPresetLocation target ++
             " doesn't exist. Have you executed the 'config' command? Have you provided the right --target param?"))
      | none => Except.ok none
    if oldAddresses.isSome ∧ oldPresetData.isNone then
      .error ("Configuration cannot be upgraded without a previous " ++
        getGeneratedPresetLocation target ++ " file. (run -r to reset)")
    else if oldAddresses.isNone ∧ oldPresetData.isSome then
      .error ("Configuration cannot be upgraded without a previous " ++
        getGeneratedAddressLocation target ++ " file. (run -r to reset)")
    else
      .ok (.proceed oldPresetData oldAddresses)

/-! ### Claim C9 -/

/-- Claim C9: when the target folder holds exactly one of the two companion
files `preset.yml` and `addresses.yml`, the prelude of `ConfigService.run`
aborts with a fatal configuration error whose message names the missing
file's location, before any generation or persistence; resolution proceeds
only when both files are present (upgrade) or both are absent (fresh
run). -/
theorem claim_C9_companion_files (P A : Type) (target : String) (upgrade : Bool)
    (migrate : A → A) :
    (∀ p : P, runPrelude target upgrade migrate (some p) (none : Option A) =
      .error (if upgrade then
        "Configuration cannot be upgraded without a previous " ++
          getGeneratedAddressLocation target ++ " file. (run -r to reset)"
      else
        "The file " ++ getGeneratedAddressLocation target ++
          " doesn't exist. Have you executed the 'config' command? Have you provided the right --target param?")) ∧
    (∀ a : A, runPrelude target upgrade migrate (none : Option P) (some a) =
      .error ("The file " ++ getGeneratedPresetLocation target ++
        " doesn't exist. Have you executed the 'config' command? Have you provided the right --target param?")) ∧
    (∀ (p : P) (a : A), runPrelude target true migrate (some p) (some a) =
      .ok (.proceed (some p) (some (migrate a)))) ∧
    (∀ (p : P) (a : A), runPrelude target false migrate (some p) (some a) =
      .ok (.existing p (migrate a))) ∧
    runPrelude target upgrade migrate (none : Option P) (none : Option A) =
      .ok (.proceed none none) := by
  cases upgrade <;>
    exact ⟨fun p => rfl, fun a => rfl, fun p a => rfl, fun p a => rfl, rfl⟩

/-- Concrete instantiation of claim C9: only `preset.yml` exists on an
upgrade run. -/
theorem claim_C9_companion_files_witness :
    runPrelude "target" true (fun a : String => a) (some "PRESET") (none : Option String) =
      .error ("Configuration cannot be upgraded without a previous " ++
        getGeneratedAddressLocation "target" ++ " file. (run -r to reset)") :=
  (claim_C9_companion_files String String "target" true (fun a => a)).1 "PRESET"

/-! ## Sink-address resolution (`generateRandomConfiguration`, lines 62-82)
and claim C10 -/

/-- State threaded by the sink resolution: the current
`addresses.sinkAddress` and the fresh-account counter. -/
structure SinkResult where
  harvest : String
  mosaicRental : String
  namespaceRental : String
  sinkAddress : Option String
  counter : Nat
deriving Repr, DecidableEq

/-- `getDefaultSyncAddress` (lines 66-69): reuse `addresses.sinkAddress` or
generate (and store) one fresh sink account. -/
def getDefaultSyncAddress (sink : Option String) (fresh : Nat → String) (counter : Nat) :
    String × Option String × Nat :=
  match sink with
  | some s => (s, some s, counter)
  | none => (fresh counter, some (fresh counter), counter + 1)

/-- One `if (!presetData.X) presetData.X = getDefaultSyncAddress()` step
(lines 74-82): an already-present preset field is kept and the state is
untouched. -/
def resolveSinkField (field sink : Option String) (fresh : Nat → String) (counter : Nat) :
    String × Option String × Nat :=
  match field with
  | some s => (s, sink, counter)
  | none => getDefaultSyncAddress sink fresh counter

/-- Lines 62 and 74-82 of `generateRandomConfiguration`:
`addresses.sinkAddress = presetData.sinkAddress || oldAddresses?.sinkAddress`
followed by the sequential resolution of the three sink fields. -/
def sinkSection (presetSink oldSink harvestSink mosaicRentalSink namespaceRentalSink :
    Option String) (fresh : Nat → String) (counter : Nat) : SinkResult :=
  let sink0 := presetSink.or oldSink
  let r1 := resolveSinkField harvestSink sink0 fresh counter
  let r2 := resolveSinkField mosaicRentalSink r1.2.1 fresh r1.2.2
  let r3 := resolveSinkField namespaceRentalSink r2.2.1 fresh r2.2.2
  ⟨r1.1, r2.1, r3.1, r3.2.1, r3.2.2⟩

/-! ### Claim C10 -/

/-- Claim C10: when the preset supplies none of the three sink fields, all
three are filled with one and the same address, which is also stored as
`addresses.sinkAddress`; that address is the preset's `sinkAddress` if
present, else the old addresses' `sinkAddress` if present, else exactly
one fresh sink account generated for the whole run (the counter grows by
exactly one, and not at all when an address was reused). -/
theorem claim_C10_single_sink_address (presetSink oldSink : Option String)
    (fresh : Nat → String) (counter : Nat) :
    (sinkSection presetSink oldSink none none none fresh counter).harvest =
      (sinkSection presetSink oldSink none none none fresh counter).mosaicRental ∧
    (sinkSection presetSink oldSink none none none fresh counter).mosaicRental =
      (sinkSection presetSink oldSink none none none fresh counter).namespaceRental ∧
    (sinkSection presetSink oldSink none none none fresh counter).sinkAddress =
      some (sinkSection presetSink oldSink none none none fresh counter).harvest ∧
    (∀ s, presetSink = some s →
      (sinkSection presetSink oldSink none none none fresh counter).harvest = s ∧
      (sinkSection presetSink oldSink none none none fresh counter).counter = counter) ∧
    (presetSink = none → ∀ t, oldSink = some t →
      (sinkSection presetSink oldSink none none none fresh counter).harvest = t ∧
      (sinkSection presetSink oldSink none none none fresh counter).counter = counter) ∧
    (presetSink = none → oldSink = none →
      (sinkSection presetSink oldSink none none none fresh counter).harvest =
        fresh counter ∧
      (sinkSection presetSink oldSink none none none fresh counter).counter =
        counter + 1) := by
  cases presetSink <;> cases oldSink <;>
    simp [sinkSection, resolveSinkField, getDefaultSyncAddress, Option.or]

theorem claim_C10_single_sink_address_witness :
    ((none : Option String) = none) ∧
    (sinkSection none none none none none (fun n => "S" ++ toString n) 0).harvest =
      "S" ++ toString 0 ∧
    (sinkSection none none none none none (fun n => "S" ++ toString n) 0).counter = 1 := by
  have h := (claim_C10_single_sink_address none none
    (fun n => "S" ++ toString n) 0).2.2.2.2.2 rfl rfl
  exact ⟨rfl, h.1, h.2⟩

end SymbolBootstrap
